import Mathlib

/-!
# Chronotheus query fan-out and synthesis engine — verification development

Shallow embedding of the Chronotheus proxy engine (Go sources
`proxy/utils.go`, `proxy/handlers.go`, `proxy/proxy.go`) and proofs about
its behaviour.

Modelling conventions:
* A Prometheus label map (`map[string]interface{}` holding strings) is an
  association list with unique keys; Go map update is modelled by removing
  the key and appending the new binding.
* A sample `[t, v]` is a `Point`: an integer timestamp and the result of
  `strconv.ParseFloat` on the value string, as `Option ℚ` (`none` = the
  value string fails to parse as a number).  Exact rationals stand in for
  IEEE doubles; the claims under study involve no rounding-sensitive
  arithmetic.
* An instant series carries `"value"` (one sample) and a range series
  `"values"` (a list); `SData` keeps the two shapes apart so that the Go
  type assertions `s["value"].([]interface{})` / `s["values"]` are modelled
  honestly: an assertion on the wrong shape is a panic, and every function
  that can panic returns `Option`, `none` meaning the request dies.
* Go map iteration order is unspecified; grouping functions determinise it
  (first-seen key order).  All properties proved are order-insensitive.
* The upstream is an oracle from the varying request parameters (the time
  anchors; all other outgoing parameters are fixed during one fan-out) to
  `Option` of a decoded body, `none` covering a network error or an
  undecodable body.
-/

/-- Label map of a series: association list with unique keys
(Go `map[string]interface{}` holding strings). -/
abbrev Labels := List (String × String)

/-- One sample: integer epoch timestamp and the float-parse result of the
value string (`none` when `strconv.ParseFloat` fails). -/
structure Point where
  ts : Int
  v : Option ℚ
  deriving DecidableEq, Repr

/-- Series payload: `vec` models an instant series (JSON key `"value"`),
`mat` a range series (JSON key `"values"`). -/
inductive SData where
  | vec (p : Point)
  | mat (ps : List Point)
  deriving DecidableEq, Repr

/-- A series as carried through the pipeline: `{"metric": ..., "value(s)": ...}`. -/
structure Series where
  metric : Labels
  sdata : SData
  deriving DecidableEq, Repr

/-- Go `m[k]` lookup on a label map. -/
def lookupL (m : Labels) (k : String) : Option String :=
  (m.find? (fun kv => kv.1 == k)).map (·.2)

/-- Go `m[k] = v` map update: the binding for `k` is replaced. -/
def setL (m : Labels) (k v : String) : Labels :=
  m.filter (fun kv => kv.1 != k) ++ [(k, v)]

/-- Go `delete(m, k)`. -/
def delL (m : Labels) (k : String) : Labels :=
  m.filter (fun kv => kv.1 != k)

/-- `proxy/utils.go proxyTimeframes`: the five raw window names. -/
def proxyTimeframes : List String :=
  ["current", "7days", "14days", "21days", "28days"]

/-- The single recognized command token (`handlers.go`). -/
def cmdOverride : String := "DONT_REMOVE_UNUSED_HISTORICS"

/-- `proxy/proxy.go NewChronoProxyWithConfig`: offsets paired with timeframe
names, `offsets[i]` belonging to `timeframes[i]`. -/
def chronoWindows : List (Int × String) :=
  [(0, "current"), (7 * 24 * 3600, "7days"), (14 * 24 * 3600, "14days"),
   (21 * 24 * 3600, "21days"), (28 * 24 * 3600, "28days")]

/-- Lexicographic `≤` on char lists (byte order of Go `sort.Strings`). -/
def charsLe : List Char → List Char → Bool
  | [], _ => true
  | _ :: _, [] => false
  | a :: as, b :: bs => if a = b then charsLe as bs else decide (a < b)

/-- String comparison used to sort label keys. -/
def strLe (a b : String) : Bool := charsLe a.data b.data

/-- Insert one binding into a key-sorted label list. -/
def insertByKey (p : String × String) : Labels → Labels
  | [] => [p]
  | q :: rest => if strLe p.1 q.1 then p :: q :: rest else q :: insertByKey p rest

/-- Sort a label list by key (Go `sort.Strings(keys)` before serializing). -/
def sortByKey : Labels → Labels
  | [] => []
  | p :: rest => insertByKey p (sortByKey rest)

/-- `proxy/utils.go signature`: the series identity used for alignment —
the label map minus the two synthetic labels, keys sorted.  The sorted
association list stands in for the canonical JSON string (the JSON
serialization is injective on key-sorted unique-key maps). -/
def signature (m : Labels) : Labels :=
  sortByKey (m.filter (fun kv =>
    kv.1 != "chrono_timeframe" && kv.1 != "_command"))

/-- Signature of a series' metric. -/
def seriesKey (s : Series) : Labels := signature s.metric

/-- Tag a fetched metric with the window name and, when a command selector
is present, with `_command` (`fetchWindowsInstant`/`fetchWindowsRange`). -/
def tagMetric (m : Labels) (tf command : String) : Labels :=
  let m1 := setL m "chrono_timeframe" tf
  if command != "" then setL m1 "_command" command else m1

/-- Decoded body of one upstream instant call: metric plus single sample. -/
abbrev UpInstant := List (Labels × Point)

/-- Decoded body of one upstream range call: metric plus sample list. -/
abbrev UpRange := List (Labels × List Point)

/-- Outcome of the instant fan-out: the `time` anchors sent upstream, in
order, and the accumulated pool. -/
structure InstantFetch where
  requests : List Int
  pool : List Series
  deriving DecidableEq, Repr

/-- Outcome of the range fan-out: the `(start, end)` anchors sent upstream,
in order, and the accumulated pool. -/
structure RangeFetch where
  requests : List (Int × Int)
  pool : List Series
  deriving DecidableEq, Repr

/-- `proxy/utils.go fetchWindowsInstant`.  The Go loop does
`base := parseTime(params.Get("time")); params.Set("time", base-offset)`:
the working multimap is mutated in place, so each iteration re-parses the
previous iteration's shifted anchor — the threaded `t` argument models
exactly that mutation.  Returned sample timestamps get `+offset` of the
window's own offset; metrics are tagged.  `upstream anchor = none` models a
network error or an undecodable body (both `continue`). -/
def fetchWindowsInstant (wins : List (Int × String))
    (upstream : Int → Option UpInstant) (command : String) (t : Int) :
    InstantFetch :=
  match wins with
  | [] => ⟨[], []⟩
  | (offset, tf) :: rest =>
    let anchor := t - offset
    let contrib : List Series :=
      match upstream anchor with
      | none => []
      | some rs => rs.map (fun r =>
          ⟨tagMetric r.1 tf command, .vec ⟨r.2.ts + offset, r.2.v⟩⟩)
    let next := fetchWindowsInstant rest upstream command anchor
    ⟨anchor :: next.requests, contrib ++ next.pool⟩

/-- `proxy/utils.go fetchWindowsRange`.  Same in-place mutation of `start`
and `end` (both re-parsed from the previous iteration's values), sample
timestamps shifted `+offset`, metrics tagged. -/
def fetchWindowsRange (wins : List (Int × String))
    (upstream : Int × Int → Option UpRange) (command : String)
    (s e : Int) : RangeFetch :=
  match wins with
  | [] => ⟨[], []⟩
  | (offset, tf) :: rest =>
    let s1 := s - offset
    let e1 := e - offset
    let contrib : List Series :=
      match upstream (s1, e1) with
      | none => []
      | some rs => rs.map (fun r =>
          ⟨tagMetric r.1 tf command,
           .mat (r.2.map (fun p => ⟨p.ts + offset, p.v⟩))⟩)
    let next := fetchWindowsRange rest upstream command s1 e1
    ⟨(s1, e1) :: next.requests, contrib ++ next.pool⟩

/-- `proxy/utils.go dedupeSeries`: group the pool by signature, then
flatten the groups.  Go flattens in (unspecified) map order; the embedding
determinises to first-seen signature order — the multiset of series is the
same for every order. -/
def dedupeSeries (all : List Series) : List Series :=
  ((all.map seriesKey).dedup).flatMap
    (fun g => all.filter (fun s => seriesKey s == g))

/-- `proxy/utils.go filterByTimeframe`: keep only series whose
`chrono_timeframe` label equals `tf` (a missing label never matches —
a Go `nil` interface differs from any string). -/
def filterByTimeframe (all : List Series) (tf : String) : List Series :=
  all.filter (fun s => lookupL s.metric "chrono_timeframe" == some tf)

/-- Is a series tagged `chrono_timeframe="current"`?
(Go `m["chrono_timeframe"] == "current"`.) -/
def isCurrent (s : Series) : Bool :=
  lookupL s.metric "chrono_timeframe" == some "current"

/-- Go minute bucketing `(ts / 60) * 60`.  Go `/` on `int64` truncates
toward zero; for the nonnegative epoch timestamps in scope this agrees
with Lean's `Int` division. -/
def minuteOf (t : Int) : Int := t / 60 * 60

/-- Accumulate one parsed value into the per-minute sum table
(`sums[minute] += v`), keeping first-seen minute order. -/
def addSum : List (Int × ℚ) → Int → ℚ → List (Int × ℚ)
  | [], m, v => [(m, v)]
  | (m1, s1) :: rest, m, v =>
    if m1 = m then (m1, s1 + v) :: rest else (m1, s1) :: addSum rest m v

/-- Read a minute bucket back out of the sum table. -/
def lookupSum (sums : List (Int × ℚ)) (m : Int) : ℚ :=
  ((sums.find? (fun e => e.1 == m)).map (·.2)).getD 0

/-- The Go per-shape point list extraction inside `buildLastMonthAverage`:
range mode asserts `s["values"].([]interface{})`, instant mode wraps
`s["value"]`; a series of the wrong shape makes the later pair assertion
panic (`none`). -/
def getPts (isRange : Bool) (s : Series) : Option (List Point) :=
  match isRange, s.sdata with
  | true, .mat ps => some ps
  | false, .vec p => some [p]
  | _, _ => none

/-- Per-group sum pass of `buildLastMonthAverage`: every sample whose value
parses contributes to its minute bucket; a failed `strconv.ParseFloat`
drops the sample (`continue`). -/
def groupSums (grp : List Series) (isRange : Bool) :
    Option (List (Int × ℚ)) :=
  grp.foldlM (fun sums s => do
    let pts ← getPts isRange s
    pure (pts.foldl (fun acc p =>
      match p.v with
      | none => acc
      | some v => addSum acc (minuteOf p.ts) v) sums)) []

/-- Insertion into an ascending `Int` list (Go `sort.Slice` on minutes). -/
def insertInt (m : Int) : List Int → List Int
  | [] => [m]
  | x :: rest => if m ≤ x then m :: x :: rest else x :: insertInt m rest

/-- Ascending sort of the minute keys. -/
def sortInts : List Int → List Int
  | [] => []
  | x :: rest => insertInt x (sortInts rest)

/-- Add a series to its signature group, first-seen key order
(determinisation of the Go map). -/
def addGroup : List (Labels × List Series) → Labels → Series →
    List (Labels × List Series)
  | [], k, s => [(k, [s])]
  | (k1, g) :: rest, k, s =>
    if k1 = k then (k1, g ++ [s]) :: rest else (k1, g) :: addGroup rest k s

/-- The averaged points: per sorted minute, `sums[m] / n` with the
denominator fixed at the historical-window count `n`. -/
def avgPts (sums : List (Int × ℚ)) (n : ℚ) : List Point :=
  (sortInts (sums.map (·.1))).map (fun m => ⟨m, some (lookupSum sums m / n)⟩)

/-- Final series assembly per group in `buildLastMonthAverage`: the metric
is the signature's labels plus the synthetic window tag; range mode emits
all points, instant mode emits `ptsOut[len(ptsOut)-1]` — an out-of-range
access (panic, `none`) when every sample of the group was dropped. -/
def mkAvgSeries (sig : Labels) (ptsOut : List Point) (isRange : Bool) :
    Option Series :=
  let metric := setL sig "chrono_timeframe" "lastMonthAverage"
  if isRange then some ⟨metric, .mat ptsOut⟩
  else (ptsOut.getLast?).map (fun last => ⟨metric, .vec last⟩)

/-- `proxy/utils.go buildLastMonthAverage`: group the non-`current` series
by signature, average per aligned minute with the denominator fixed at
`len(proxyTimeframes()) - 1 = 4`, and emit one `lastMonthAverage` series
per signature.  `none` = the Go code panics. -/
def buildLastMonthAverage (seriesList : List Series) (isRange : Bool) :
    Option (List Series) :=
  let n := proxyTimeframes.length - 1
  if n < 1 then some [] else
  let groups := seriesList.foldl (fun gs s =>
    if isCurrent s then gs else addGroup gs (seriesKey s) s) []
  groups.mapM (fun g => do
    let sums ← groupSums g.2 isRange
    mkAvgSeries g.1 (avgPts sums (n : ℚ)) isRange)

/-- Map insert with overwrite, for the signature-keyed series maps. -/
def insertS (m : List (Labels × Series)) (k : Labels) (v : Series) :
    List (Labels × Series) :=
  m.filter (fun kv => kv.1 != k) ++ [(k, v)]

/-- Assoc lookup on a signature-keyed series map. -/
def lookupS (m : List (Labels × Series)) (k : Labels) : Option Series :=
  (m.find? (fun kv => kv.1 == k)).map (·.2)

/-- `proxy/utils.go indexBySignature`: current-window series and average
series, each keyed by signature. -/
def indexBySignature (all avgList : List Series) :
    List (Labels × Series) × List (Labels × Series) :=
  (all.foldl (fun m s =>
      if isCurrent s then insertS m (seriesKey s) s else m) [],
   avgList.foldl (fun m s => insertS m (seriesKey s) s) [])

/-- Timestamp-indexed average lookup in the range branches of
`appendCompare`/`appendPercent`: the Go code folds `avgByTs[ts] = v` over
the average's samples (later samples overwrite earlier ones) and a lookup
of a missing timestamp yields the zero value. -/
def avgAt (aps : List Point) (t : Int) : ℚ :=
  aps.foldl (fun acc p => if p.ts = t then p.v.getD 0 else acc) 0

/-- The percent-delta arithmetic of `appendPercent`
(`pct := 0.0; if va != 0 { pct = (vc - va) / va * 100 }`). -/
def pctOf (vc va : ℚ) : ℚ := if va ≠ 0 then (vc - va) / va * 100 else 0

/-- Metric of an emitted `compareAgainstLast28` series. -/
def compareMetric (m : Labels) (command : String) : Labels :=
  let nm := setL m "chrono_timeframe" "compareAgainstLast28"
  if command != "" then setL nm "_command" command else nm

/-- Metric of an emitted `percentCompareAgainstLast28` series. -/
def percentMetric (m : Labels) (command : String) : Labels :=
  let nm := setL m "chrono_timeframe" "percentCompareAgainstLast28"
  if command != "" then setL nm "_command" command else nm

/-- Range-shape point construction of `appendCompare`: one output point per
current sample, in order, subtracting the timestamp-matched average. -/
def compareRangePts (cps aps : List Point) : List Point :=
  cps.map (fun p => ⟨p.ts, some (p.v.getD 0 - avgAt aps p.ts)⟩)

/-- Range-shape point construction of `appendPercent`. -/
def percentRangePts (cps aps : List Point) : List Point :=
  cps.map (fun p => ⟨p.ts, some (pctOf (p.v.getD 0) (avgAt aps p.ts))⟩)

/-- Per-pair series constructor inside `appendCompare`: instant mode
asserts both `"value"` pairs (wrong shape = panic = `none`), range mode
asserts both `"values"` lists. -/
def mkCompare (c a : Series) (command : String) (isRange : Bool) :
    Option Series :=
  let nm := compareMetric c.metric command
  if isRange then
    match c.sdata, a.sdata with
    | .mat cps, .mat aps => some ⟨nm, .mat (compareRangePts cps aps)⟩
    | _, _ => none
  else
    match c.sdata, a.sdata with
    | .vec pc, .vec pa =>
      some ⟨nm, .vec ⟨pc.ts, some (pc.v.getD 0 - pa.v.getD 0)⟩⟩
    | _, _ => none

/-- Per-pair series constructor inside `appendPercent`. -/
def mkPercent (c a : Series) (command : String) (isRange : Bool) :
    Option Series :=
  let nm := percentMetric c.metric command
  if isRange then
    match c.sdata, a.sdata with
    | .mat cps, .mat aps => some ⟨nm, .mat (percentRangePts cps aps)⟩
    | _, _ => none
  else
    match c.sdata, a.sdata with
    | .vec pc, .vec pa =>
      some ⟨nm, .vec ⟨pc.ts, some (pctOf (pc.v.getD 0) (pa.v.getD 0))⟩⟩
    | _, _ => none

/-- The `for sig, c := range curMap` loop shared by `appendCompare` and
`appendPercent`: skip signatures missing from the average map, emit one
synthetic series per matched pair, propagate a panic. -/
def pairEntries (mk : Series → Series → Option Series)
    (avgMap : List (Labels × Series)) :
    List (Labels × Series) → Option (List Series)
  | [] => some []
  | (sig, c) :: rest =>
    match lookupS avgMap sig with
    | none => pairEntries mk avgMap rest
    | some a =>
      match mk c a with
      | none => none
      | some s => (pairEntries mk avgMap rest).map (s :: ·)

/-- `proxy/utils.go appendCompare`: append one `compareAgainstLast28`
series per signature present in both maps. -/
def appendCompare (base : List Series) (curMap avgMap : List (Labels × Series))
    (command : String) (isRange : Bool) : Option (List Series) :=
  (pairEntries (fun c a => mkCompare c a command isRange) avgMap curMap).map
    (base ++ ·)

/-- `proxy/utils.go appendPercent`: append one `percentCompareAgainstLast28`
series per signature present in both maps. -/
def appendPercent (base : List Series) (curMap avgMap : List (Labels × Series))
    (command : String) (isRange : Bool) : Option (List Series) :=
  (pairEntries (fun c a => mkPercent c a command isRange) avgMap curMap).map
    (base ++ ·)

/-- The Prometheus v1 envelope written by `proxy/utils.go writeJSON`. -/
structure Envelope where
  status : String
  resultType : String
  result : List Series
  deriving DecidableEq, Repr

/-- `writeJSON`: success envelope around a result list. -/
def writeJSON (rt : String) (result : List Series) : Envelope :=
  ⟨"success", rt, result⟩

/-- The post-synthesis filter at the tail of `handleQuery` /
`handleQueryRange`: filter to the requested timeframe unless none was
requested or the command override is present. -/
def finalFilter (m : List Series) (tf command : String) : List Series :=
  if tf != "" && command != cmdOverride then filterByTimeframe m tf else m

/-- `handleQuery` case 1 (no timeframe): dedupe, synthesize all three
synthetic families, concatenate (`handlers.go` lines 94–108; the handler
passes the literal `""` as the command to `appendCompare`/`appendPercent`). -/
def synthAll (pool : List Series) (isRange : Bool) : Option (List Series) := do
  let merged := dedupeSeries pool
  let avg ← buildLastMonthAverage merged isRange
  let idx := indexBySignature merged avg
  let cmp ← appendCompare [] idx.1 idx.2 "" isRange
  let pct ← appendPercent [] idx.1 idx.2 "" isRange
  pure (merged ++ avg ++ cmp ++ pct)

/-- `handleQuery` case 3 (synthetic timeframe): dedupe, build the average,
and keep only the requested synthetic family; the (unreachable) default of
the Go `switch` leaves the deduped pool. -/
def synthOnly (pool : List Series) (tf : String) (isRange : Bool) :
    Option (List Series) := do
  let merged := dedupeSeries pool
  let avg ← buildLastMonthAverage merged isRange
  let idx := indexBySignature merged avg
  if tf == "lastMonthAverage" then pure avg
  else if tf == "compareAgainstLast28" then
    appendCompare [] idx.1 idx.2 "" isRange
  else if tf == "percentCompareAgainstLast28" then
    appendPercent [] idx.1 idx.2 "" isRange
  else pure merged

/-- Outcome of one query-endpoint request: the upstream anchors issued and
the response (`none` = the handler panics before writing). -/
structure QueryOutcome where
  requests : List Int
  response : Option Envelope
  deriving DecidableEq, Repr

/-- Outcome of one range-endpoint request. -/
structure QueryRangeOutcome where
  requests : List (Int × Int)
  response : Option Envelope
  deriving DecidableEq, Repr

/-- Is the timeframe selector a raw (single-window-eligible) one?  The Go
condition `requestedTf != "" && requestedTf != "lastMonthAverage" && ...`
(`handlers.go` lines 75–76). -/
def isRawBranch (tf : String) : Bool :=
  tf != "" && tf != "lastMonthAverage" && tf != "compareAgainstLast28" &&
    tf != "percentCompareAgainstLast28"

/-- `proxy/handlers.go handleQuery`, from the point where the selectors
have been extracted: the raw-timeframe fast path builds a one-window proxy
and fetches only it — regardless of the command selector; otherwise all
five windows are fetched and the command/empty/synthetic cases run, and the
final filter is applied unless the override is present. -/
def handleQuery (tf command : String) (upstream : Int → Option UpInstant)
    (t : Int) : QueryOutcome :=
  if isRawBranch tf then
    match chronoWindows.find? (fun w => w.2 == tf) with
    | some w =>
      let f := fetchWindowsInstant [w] upstream command t
      ⟨f.requests, some (writeJSON "vector" (finalFilter f.pool tf command))⟩
    | none => ⟨[], some (writeJSON "vector" (finalFilter [] tf command))⟩
  else
    let f := fetchWindowsInstant chronoWindows upstream command t
    let merged :=
      if command == cmdOverride then some (dedupeSeries f.pool)
      else if tf == "" then synthAll f.pool false
      else synthOnly f.pool tf false
    ⟨f.requests,
     merged.map (fun m => writeJSON "vector" (finalFilter m tf command))⟩

/-- `proxy/handlers.go handleQueryRange`: same control flow with range
fetches and `resultType "matrix"` (the `step` default does not affect the
modelled outcome and is absorbed by the upstream oracle). -/
def handleQueryRange (tf command : String)
    (upstream : Int × Int → Option UpRange) (s e : Int) :
    QueryRangeOutcome :=
  if isRawBranch tf then
    match chronoWindows.find? (fun w => w.2 == tf) with
    | some w =>
      let f := fetchWindowsRange [w] upstream command s e
      ⟨f.requests, some (writeJSON "matrix" (finalFilter f.pool tf command))⟩
    | none => ⟨[], some (writeJSON "matrix" (finalFilter [] tf command))⟩
  else
    let f := fetchWindowsRange chronoWindows upstream command s e
    let merged :=
      if command == cmdOverride then some (dedupeSeries f.pool)
      else if tf == "" then synthAll f.pool true
      else synthOnly f.pool tf true
    ⟨f.requests,
     merged.map (fun m => writeJSON "matrix" (finalFilter m tf command))⟩

/-- The process-wide label-values cache (`handlers.go labelValuesCache`):
per label name, the cached data list and its store timestamp (seconds). -/
abbrev LVCache := List (String × (List String × Int))

/-- `handlers.go labelValuesCacheTTL = 5 * time.Minute`, in seconds. -/
def labelValuesCacheTTL : Int := 300

/-- Upstream behaviour for one label-values pass-through call. -/
inductive UpLV where
  | netErr
  | badBody
  | body (data : Option (List String))
  deriving DecidableEq, Repr

/-- What `handleLabelValues` writes back. -/
inductive LVResult where
  | ok (data : List String)
  | echo (data : Option (List String))
  | badGateway
  deriving DecidableEq, Repr

/-- Outcome of one label-values request: response, whether the upstream was
called, and the cache state afterwards. -/
structure LVOutcome where
  result : LVResult
  calledUpstream : Bool
  cache : LVCache
  deriving DecidableEq, Repr

/-- Store a fresh upstream data list in the cache. -/
def insertLV (cache : LVCache) (label : String) (data : List String)
    (now : Int) : LVCache :=
  cache.filter (fun kv => kv.1 != label) ++ [(label, (data, now))]

/-- The cache-miss path of `handleLabelValues`: call upstream; a network
error or undecodable body is surfaced as bad-gateway; a decoded body with a
`data` array refreshes the cache and is echoed. -/
def lvFetch (label : String) (cache : LVCache) (now : Int) (up : UpLV) :
    LVOutcome :=
  match up with
  | .netErr => ⟨.badGateway, true, cache⟩
  | .badBody => ⟨.badGateway, true, cache⟩
  | .body (some data) => ⟨.echo (some data), true, insertLV cache label data now⟩
  | .body none => ⟨.echo none, true, cache⟩

/-- `proxy/handlers.go handleLabelValues`: the two synthetic label names
are answered locally without touching upstream or cache; any other name is
served from the cache when a fresh enough entry exists, else proxied. -/
def handleLabelValues (label : String) (cache : LVCache) (now : Int)
    (up : UpLV) : LVOutcome :=
  if label == "chrono_timeframe" then
    ⟨.ok (proxyTimeframes ++
      ["lastMonthAverage", "compareAgainstLast28",
       "percentCompareAgainstLast28"]), false, cache⟩
  else if label == "_command" then
    ⟨.ok ["", cmdOverride], false, cache⟩
  else
    match cache.find? (fun kv => kv.1 == label) with
    | some e =>
      if now - e.2.2 < labelValuesCacheTTL then ⟨.ok e.2.1, false, cache⟩
      else lvFetch label cache now up
    | none => lvFetch label cache now up

/-- Capture of the regex tail `([^\x22]+)\x22`: the longest nonempty run of
non-quote characters, which must be terminated by a quote. -/
def captureQuoted (s : List Char) : Option (List Char) :=
  let pre := s.takeWhile (fun c => c ≠ '"')
  if pre.isEmpty then none
  else
    match s.drop pre.length with
    | '"' :: _ => some pre
    | _ => none

/-- Leftmost unanchored match of `pat` followed by a quoted capture
(`regexp.FindStringSubmatch` semantics for the selector patterns): if the
literal pattern occurs but the capture fails, the scan continues at the
next position. -/
def findLabelMatch (pat : List Char) : List Char → Option (List Char)
  | [] => none
  | c :: rest =>
    if pat.isPrefixOf (c :: rest) then
      match captureQuoted ((c :: rest).drop pat.length) with
      | some cap => some cap
      | none => findLabelMatch pat rest
    else findLabelMatch pat rest

/-- `proxy/utils.go detectSelectors`.  The Go source compiles the raw
pattern `\\bchrono_timeframe="([^"]+)"`: inside a raw (backtick) Go string
`\\` is a regex-escaped literal backslash, so the compiled regex demands
the two literal characters `\` and `b` immediately before the label name —
not a word boundary.  The embedding reproduces that compiled pattern. -/
def detectSelectors (q : String) : String × String :=
  let tf :=
    match findLabelMatch ("\\bchrono_timeframe=\"").data q.data with
    | some cap => String.mk cap
    | none => ""
  let cmd :=
    match findLabelMatch ("\\b_command=\"").data q.data with
    | some cap => String.mk cap
    | none => ""
  (tf, cmd)

/-- Whole-value matcher `^label="([^"]+)"$` used on `match[]` entries by
`handlers.go extractSelectors`. -/
def wholeMatch (label : String) (s : String) : Option String :=
  let pat := (label ++ "=\"").data
  let cs := s.data
  if pat.isPrefixOf cs then
    let rest := cs.drop pat.length
    match captureQuoted rest with
    | some v => if rest.length = v.length + 1 then some (String.mk v) else none
    | none => none
  else none

/-- `proxy/handlers.go extractSelectors`: first the whole-value `match[]`
entries (first match captured; the removal of the captured entries from the
multimap only affects the outgoing parameters, not the captured values),
then the inline `query` fallback for whichever selector is still empty. -/
def extractSelectors (matchVals : List String) (q : String) :
    String × String :=
  let tf1 := (matchVals.findSome? (fun m => wholeMatch "chrono_timeframe" m)).getD ""
  let cmd1 := (matchVals.findSome? (fun m => wholeMatch "_command" m)).getD ""
  if tf1 == "" || cmd1 == "" then
    let inl := detectSelectors q
    (if tf1 == "" then inl.1 else tf1, if cmd1 == "" then inl.2 else cmd1)
  else (tf1, cmd1)

/-- Spec-side description of the average lookup in §4.7, for comparison
with the implementation's `avgAt`: "For each current sample with timestamp
`t`, the average at `t` is looked up; if absent it is treated as `0`." -/
def specAvgAt (aps : List Point) (t : Int) : ℚ :=
  match aps.find? (fun p => p.ts == t) with
  | some p => p.v.getD 0
  | none => 0

/-- Upstream fixture for claim C2: every window call returns one `up`
series sampled at the queried anchor. -/
def c2Upstream : Int → Option UpInstant :=
  fun t => some [([("__name__", "up")], ⟨t, some 1⟩)]

/-! ## Helper lemmas -/

/-- A fan-out against an always-failing upstream contributes no series. -/
theorem fetchWindowsInstant_pool_none (wins : List (Int × String))
    (command : String) (t : Int) :
    (fetchWindowsInstant wins (fun _ => none) command t).pool = [] := by
  induction wins generalizing t with
  | nil => rfl
  | cons w rest ih =>
    cases w
    simp [fetchWindowsInstant, ih]

/-- Range version of `fetchWindowsInstant_pool_none`. -/
theorem fetchWindowsRange_pool_none (wins : List (Int × String))
    (command : String) (s e : Int) :
    (fetchWindowsRange wins (fun _ => none) command s e).pool = [] := by
  induction wins generalizing s e with
  | nil => rfl
  | cons w rest ih =>
    cases w
    simp [fetchWindowsRange, ih]

/-- Filtering an empty pool yields an empty pool. -/
theorem finalFilter_nil (tf command : String) :
    finalFilter [] tf command = [] := by
  unfold finalFilter
  split <;> rfl

/-- Full synthesis over an empty pool yields an empty pool. -/
theorem synthAll_nil (b : Bool) : synthAll [] b = some [] := rfl

/-- Single-synthetic synthesis over an empty pool yields an empty pool. -/
theorem synthOnly_nil (tf : String) (b : Bool) :
    synthOnly [] tf b = some [] := by
  unfold synthOnly
  cases h1 : (tf == "lastMonthAverage") <;>
    cases h2 : (tf == "compareAgainstLast28") <;>
      cases h3 : (tf == "percentCompareAgainstLast28") <;>
        simp [h1, h2, h3, dedupeSeries, buildLastMonthAverage,
          proxyTimeframes, indexBySignature, appendCompare, appendPercent,
          pairEntries, List.mapM.loop]


/-- Grouping a list by key and flattening the groups permutes the list:
nothing is collapsed.  The keys list must be duplicate-free and cover the
list. -/
theorem flatMap_filter_perm {α K : Type} [BEq K] [LawfulBEq K]
    [DecidableEq K] (key : α → K) :
    ∀ (ks : List K) (l : List α), ks.Nodup → (∀ a ∈ l, key a ∈ ks) →
      List.Perm (ks.flatMap (fun g => l.filter (fun a => key a == g))) l := by
  intro ks
  induction ks with
  | nil =>
    intro l _ hcov
    cases l with
    | nil => simp
    | cons a rest => exact absurd (hcov a (List.mem_cons_self a rest)) (by simp)
  | cons g ks ih =>
    intro l hnd hcov
    have hgnotin : g ∉ ks := (List.nodup_cons.mp hnd).1
    have hnd2 : ks.Nodup := (List.nodup_cons.mp hnd).2
    have htail : ks.map (fun g2 => l.filter (fun a => key a == g2))
        = ks.map (fun g2 =>
            (l.filter (fun a => key a != g)).filter (fun a => key a == g2)) := by
      apply List.map_congr_left
      intro g2 hg2
      rw [List.filter_filter]
      apply List.filter_congr
      intro a _
      cases hk : (key a == g2) with
      | false => simp [hk]
      | true =>
        have hkk : key a = g2 := by simpa using hk
        have hne : key a ≠ g := by
          rw [hkk]; intro hgg; exact hgnotin (hgg ▸ hg2)
        simp [hk, hne]
    have hcov2 : ∀ a ∈ l.filter (fun a => key a != g), key a ∈ ks := by
      intro a ha
      have hmem := (List.mem_filter.mp ha).1
      have hne : key a ≠ g := by simpa using (List.mem_filter.mp ha).2
      rcases List.mem_cons.mp (hcov a hmem) with h | h
      · exact absurd h hne
      · exact h
    have hperm2 := ih (l.filter (fun a => key a != g)) hnd2 hcov2
    have heq1 : (g :: ks).flatMap (fun g2 => l.filter (fun a => key a == g2))
        = l.filter (fun a => key a == g) ++
            ks.flatMap (fun g2 => l.filter (fun a => key a == g2)) := by
      simp [List.flatMap_cons]
    have heq2 : ks.flatMap (fun g2 => l.filter (fun a => key a == g2))
        = ks.flatMap (fun g2 =>
            (l.filter (fun a => key a != g)).filter (fun a => key a == g2)) := by
      unfold List.flatMap
      rw [htail]
    rw [heq1, heq2]
    refine List.Perm.trans (List.Perm.append_left _ hperm2) ?_
    have hfap := List.filter_append_perm (fun a => key a == g) l
    simpa [bne] using hfap

/-- Deduplication never drops a series: the output is a permutation of the
input pool. -/
theorem dedupeSeries_perm (all : List Series) :
    List.Perm (dedupeSeries all) all := by
  unfold dedupeSeries
  exact flatMap_filter_perm seriesKey ((all.map seriesKey).dedup) all
    (List.nodup_dedup (all.map seriesKey))
    (fun a ha => List.mem_dedup.mpr (List.mem_map_of_mem seriesKey ha))

/-- The overwrite-fold of `avgAt` ignores samples at other timestamps. -/
theorem avgAt_no_match (aps : List Point) (t : Int) (acc : ℚ)
    (h : ∀ p ∈ aps, p.ts ≠ t) :
    aps.foldl (fun acc p => if p.ts = t then p.v.getD 0 else acc) acc
      = acc := by
  induction aps generalizing acc with
  | nil => rfl
  | cons p rest ih =>
    simp only [List.foldl_cons]
    rw [if_neg (h p (List.mem_cons_self p rest))]
    exact ih acc (fun q hq => h q (List.mem_cons_of_mem p hq))

/-- When the average's timestamps are duplicate-free, the implementation's
timestamp lookup (`avgAt`, last write wins, zero default) agrees with the
specification's "value at `t`, else 0" (`specAvgAt`). -/
theorem avgAt_eq_specAvgAt (aps : List Point) (t : Int)
    (hnd : (aps.map Point.ts).Nodup) : avgAt aps t = specAvgAt aps t := by
  induction aps with
  | nil => rfl
  | cons p rest ih =>
    rw [List.map_cons] at hnd
    have h1 : p.ts ∉ rest.map Point.ts := (List.nodup_cons.mp hnd).1
    have h2 : (rest.map Point.ts).Nodup := (List.nodup_cons.mp hnd).2
    by_cases hp : p.ts = t
    · have hno : ∀ q ∈ rest, q.ts ≠ t := by
        intro q hq hqt
        exact h1 (by rw [hp, ← hqt]; exact List.mem_map_of_mem Point.ts hq)
      unfold avgAt
      simp only [List.foldl_cons, if_pos hp]
      rw [avgAt_no_match rest t _ hno]
      unfold specAvgAt
      rw [List.find?_cons_of_pos _ (by simpa using hp)]
    · unfold avgAt
      simp only [List.foldl_cons, if_neg hp]
      have hrw := ih h2
      unfold avgAt at hrw
      rw [hrw]
      unfold specAvgAt
      rw [List.find?_cons_of_neg _ (by simpa using hp)]

/-- Every matched pair of the `appendCompare`/`appendPercent` loop
contributes its constructed series to a successful outcome. -/
theorem pairEntries_mem (mk : Series → Series → Option Series)
    (avgMap : List (Labels × Series)) :
    ∀ (entries : List (Labels × Series)) (L : List Series) (sig : Labels)
      (c a s : Series),
      pairEntries mk avgMap entries = some L →
      (sig, c) ∈ entries → lookupS avgMap sig = some a → mk c a = some s →
      s ∈ L := by
  intro entries
  induction entries with
  | nil =>
    intro L sig c a s _ hmem
    cases hmem
  | cons e rest ih =>
    intro L sig c a s hpe hmem hla hmk
    obtain ⟨sig0, c0⟩ := e
    rcases List.mem_cons.mp hmem with heq | htail
    · injection heq with h1 h2
      subst h1
      subst h2
      unfold pairEntries at hpe
      simp only [hla, hmk] at hpe
      cases hrest : pairEntries mk avgMap rest with
      | none => rw [hrest] at hpe; simp at hpe
      | some L0 =>
        rw [hrest] at hpe
        simp at hpe
        rw [← hpe]
        exact List.mem_cons_self s L0
    · unfold pairEntries at hpe
      cases hl : lookupS avgMap sig0 with
      | none =>
        rw [hl] at hpe
        exact ih L sig c a s hpe htail hla hmk
      | some a0 =>
        simp only [hl] at hpe
        cases hm : mk c0 a0 with
        | none => simp only [hm] at hpe; simp at hpe
        | some s0 =>
          simp only [hm] at hpe
          cases hrest : pairEntries mk avgMap rest with
          | none => rw [hrest] at hpe; simp at hpe
          | some L0 =>
            rw [hrest] at hpe
            simp at hpe
            rw [← hpe]
            exact List.mem_cons_of_mem s0 (ih L0 sig c a s hrest htail hla hmk)

/-! ## Claim theorems -/

/-- Claim C1 (code bug): the fan-out loops mutate the working parameter
multimap in place and re-parse it, so the offsets accumulate: the i-th
instant request's `time` anchor is the client anchor minus the *sum* of the
offsets up to window i (and likewise for the range `start`/`end`), not
minus the window's own offset.  At client anchor 1700000000 the third
(14days) request is anchored at 1700000000 − 1814400, whereas the claim
demands 1700000000 − 1209600: the anchor list the claim predicts is
refuted. -/
theorem chronoC1_anchor_accumulation :
    (fetchWindowsInstant chronoWindows (fun _ => none) "" 1700000000).requests
        = [1700000000, 1699395200, 1698185600, 1696371200, 1693952000] ∧
    (fetchWindowsRange chronoWindows (fun _ => none) "" 1700000000
        1700000600).requests
        = [(1700000000, 1700000600), (1699395200, 1699395800),
           (1698185600, 1698186200), (1696371200, 1696371800),
           (1693952000, 1693952600)] ∧
    ¬ ((fetchWindowsInstant chronoWindows (fun _ => none) "" 1700000000).requests
        = [1700000000, 1699395200, 1698790400, 1698185600, 1697580800]) := by
  decide

/-- Claim C2 (code bug): with window selector `7days` and the command
override present, the raw-timeframe fast path of `handleQuery` triggers
regardless of the command selector, so the engine issues exactly one
upstream request (not five) and emits only the `7days` series (no other
windows, no synthetics) — contradicting the claim that all five windows
are fetched and everything is emitted. -/
theorem chronoC2_override_single_window :
    handleQuery "7days" cmdOverride c2Upstream 1700000000
      = ⟨[1699395200],
         some ⟨"success", "vector",
           [⟨[("__name__", "up"), ("chrono_timeframe", "7days"),
              ("_command", cmdOverride)],
             .vec ⟨1700000000, some 1⟩⟩]⟩⟩ ∧
    (handleQuery "7days" cmdOverride c2Upstream 1700000000).requests.length
      = 1 ∧
    chronoWindows.length = 5 := by
  decide

/-- Claim C3, counterexample: the label-values response for
`chrono_timeframe` is not the claimed nine-name list (five raw plus three
synthetic plus `current` again) — the engine returns only eight names. -/
theorem chronoC3_counterexample :
    (handleLabelValues "chrono_timeframe" [] 0 .netErr).result ≠
      .ok ["current", "7days", "14days", "21days", "28days",
           "lastMonthAverage", "compareAgainstLast28",
           "percentCompareAgainstLast28", "current"] := by
  decide

/-- Claim C3, amended: for every request to the label-values endpoint with
label name `chrono_timeframe`, the engine returns a success-status response
whose data list is exactly the eight window names (the five raw windows
plus the three synthetics, `current` appearing once), in a stable order,
with no upstream call and no cache interaction. -/
theorem chronoC3_label_values :
    ∀ (cache : LVCache) (now : Int) (up : UpLV),
      handleLabelValues "chrono_timeframe" cache now up
        = ⟨.ok ["current", "7days", "14days", "21days", "28days",
                "lastMonthAverage", "compareAgainstLast28",
                "percentCompareAgainstLast28"], false, cache⟩ :=
  fun _ _ _ => rfl

/-- Claim C4, counterexample: a pool holding two byte-identical series is
not collapsed — the duplicate appears twice in the output of
`dedupeSeries`, refuting "the output contains that series exactly once". -/
theorem chronoC4_counterexample :
    (dedupeSeries [⟨[("a", "1")], .vec ⟨100, some 1⟩⟩,
                   ⟨[("a", "1")], .vec ⟨100, some 1⟩⟩]).count
        (⟨[("a", "1")], .vec ⟨100, some 1⟩⟩ : Series) = 2 ∧
    ¬ (dedupeSeries [⟨[("a", "1")], .vec ⟨100, some 1⟩⟩,
                     ⟨[("a", "1")], .vec ⟨100, some 1⟩⟩]).count
        (⟨[("a", "1")], .vec ⟨100, some 1⟩⟩ : Series) = 1 := by
  decide

/-- Claim C4, amended: `dedupeSeries` groups the pool by signature and
flattens the groups; it collapses nothing — the output is a permutation of
the input and every series (byte-identical duplicates included) keeps its
multiplicity, while distinct windows sharing a signature remain separate
series. -/
theorem chronoC4_grouping_preserves :
    ∀ (all : List Series) (s : Series),
      List.Perm (dedupeSeries all) all ∧
      (dedupeSeries all).count s = all.count s :=
  fun all s => ⟨dedupeSeries_perm all, (dedupeSeries_perm all).count_eq s⟩

/-- Claim C5 (confirmed): for range-shape delta synthesis, for every
signature present in both the current-series index and the average-series
index (with well-shaped range payloads and duplicate-free average
timestamps), the emitted `compareAgainstLast28` and
`percentCompareAgainstLast28` series are in the respective outputs and
have exactly the current series' timestamps in order, and at each current
timestamp `t` the average value used is the average series' value at `t`,
or `0` when the average has no sample at `t` (`specAvgAt`). -/
theorem chronoC5_range_alignment
    (curMap avgMap : List (Labels × Series)) (sig : Labels) (c a : Series)
    (cps aps : List Point) (command : String) (L M : List Series)
    (hmem : (sig, c) ∈ curMap) (hav : lookupS avgMap sig = some a)
    (hc : c.sdata = .mat cps) (ha : a.sdata = .mat aps)
    (hnd : (aps.map Point.ts).Nodup)
    (hcL : appendCompare [] curMap avgMap command true = some L)
    (hpM : appendPercent [] curMap avgMap command true = some M) :
    Series.mk (compareMetric c.metric command)
        (.mat (compareRangePts cps aps)) ∈ L ∧
    Series.mk (percentMetric c.metric command)
        (.mat (percentRangePts cps aps)) ∈ M ∧
    (compareRangePts cps aps).map Point.ts = cps.map Point.ts ∧
    (percentRangePts cps aps).map Point.ts = cps.map Point.ts ∧
    compareRangePts cps aps
      = cps.map (fun p => ⟨p.ts, some (p.v.getD 0 - specAvgAt aps p.ts)⟩) ∧
    percentRangePts cps aps
      = cps.map (fun p =>
          ⟨p.ts, some (pctOf (p.v.getD 0) (specAvgAt aps p.ts))⟩) := by
  have hmkc : mkCompare c a command true
      = some ⟨compareMetric c.metric command,
              .mat (compareRangePts cps aps)⟩ := by
    simp only [mkCompare, hc, ha, if_true]
  have hmkp : mkPercent c a command true
      = some ⟨percentMetric c.metric command,
              .mat (percentRangePts cps aps)⟩ := by
    simp only [mkPercent, hc, ha, if_true]
  have hL : pairEntries (fun c a => mkCompare c a command true) avgMap curMap
      = some L := by
    unfold appendCompare at hcL
    cases hq : pairEntries (fun c a => mkCompare c a command true) avgMap
        curMap with
    | none => rw [hq] at hcL; simp at hcL
    | some L0 =>
      rw [hq] at hcL
      simp at hcL
      rw [hcL]
  have hM : pairEntries (fun c a => mkPercent c a command true) avgMap curMap
      = some M := by
    unfold appendPercent at hpM
    cases hq : pairEntries (fun c a => mkPercent c a command true) avgMap
        curMap with
    | none => rw [hq] at hpM; simp at hpM
    | some M0 =>
      rw [hq] at hpM
      simp at hpM
      rw [hpM]
  refine ⟨pairEntries_mem _ avgMap curMap L sig c a _ hL hmem hav hmkc,
          pairEntries_mem _ avgMap curMap M sig c a _ hM hmem hav hmkp,
          ?_, ?_, ?_, ?_⟩
  · simp [compareRangePts]
  · simp [percentRangePts]
  · unfold compareRangePts
    apply List.map_congr_left
    intro p _
    rw [avgAt_eq_specAvgAt aps p.ts hnd]
  · unfold percentRangePts
    apply List.map_congr_left
    intro p _
    rw [avgAt_eq_specAvgAt aps p.ts hnd]

/-- Witness for claim C5: a concrete signature present in both indexes,
with the theorem applied at it. -/
theorem chronoC5_range_alignment_witness :
    Series.mk (compareMetric [("a", "1"), ("chrono_timeframe", "current")] "")
        (.mat (compareRangePts [⟨60, some 4⟩, ⟨120, some 5⟩] [⟨60, some 1⟩]))
      ∈ [(⟨compareMetric [("a", "1"), ("chrono_timeframe", "current")] "",
          .mat (compareRangePts [⟨60, some 4⟩, ⟨120, some 5⟩]
            [⟨60, some 1⟩])⟩ : Series)] ∧
    Series.mk (percentMetric [("a", "1"), ("chrono_timeframe", "current")] "")
        (.mat (percentRangePts [⟨60, some 4⟩, ⟨120, some 5⟩] [⟨60, some 1⟩]))
      ∈ [(⟨percentMetric [("a", "1"), ("chrono_timeframe", "current")] "",
          .mat (percentRangePts [⟨60, some 4⟩, ⟨120, some 5⟩]
            [⟨60, some 1⟩])⟩ : Series)] ∧
    (compareRangePts [⟨60, some 4⟩, ⟨120, some 5⟩] [⟨60, some 1⟩]).map Point.ts
      = ([⟨60, some 4⟩, ⟨120, some 5⟩] : List Point).map Point.ts ∧
    (percentRangePts [⟨60, some 4⟩, ⟨120, some 5⟩] [⟨60, some 1⟩]).map Point.ts
      = ([⟨60, some 4⟩, ⟨120, some 5⟩] : List Point).map Point.ts ∧
    compareRangePts [⟨60, some 4⟩, ⟨120, some 5⟩] [⟨60, some 1⟩]
      = ([⟨60, some 4⟩, ⟨120, some 5⟩] : List Point).map (fun p =>
          ⟨p.ts, some (p.v.getD 0 - specAvgAt [⟨60, some 1⟩] p.ts)⟩) ∧
    percentRangePts [⟨60, some 4⟩, ⟨120, some 5⟩] [⟨60, some 1⟩]
      = ([⟨60, some 4⟩, ⟨120, some 5⟩] : List Point).map (fun p =>
          ⟨p.ts, some (pctOf (p.v.getD 0) (specAvgAt [⟨60, some 1⟩] p.ts))⟩) :=
  chronoC5_range_alignment
    [([("a", "1")],
      ⟨[("a", "1"), ("chrono_timeframe", "current")],
       .mat [⟨60, some 4⟩, ⟨120, some 5⟩]⟩)]
    [([("a", "1")],
      ⟨[("a", "1"), ("chrono_timeframe", "lastMonthAverage")],
       .mat [⟨60, some 1⟩]⟩)]
    [("a", "1")]
    ⟨[("a", "1"), ("chrono_timeframe", "current")],
     .mat [⟨60, some 4⟩, ⟨120, some 5⟩]⟩
    ⟨[("a", "1"), ("chrono_timeframe", "lastMonthAverage")],
     .mat [⟨60, some 1⟩]⟩
    [⟨60, some 4⟩, ⟨120, some 5⟩] [⟨60, some 1⟩] ""
    [⟨compareMetric [("a", "1"), ("chrono_timeframe", "current")] "",
      .mat (compareRangePts [⟨60, some 4⟩, ⟨120, some 5⟩] [⟨60, some 1⟩])⟩]
    [⟨percentMetric [("a", "1"), ("chrono_timeframe", "current")] "",
      .mat (percentRangePts [⟨60, some 4⟩, ⟨120, some 5⟩] [⟨60, some 1⟩])⟩]
    (List.mem_cons_self _ _) rfl rfl rfl (by simp) rfl rfl

/-- Claim C6 (code bug): selector extraction does NOT capture a plain
inline label-matcher fragment — the doubly-escaped source pattern demands
a literal backslash-b before the label name, so on the ordinary inline
query the extraction returns empty selectors; it would capture only if the
query contained the two literal characters `\` and `b`. -/
theorem chronoC6_inline_capture_fails :
    extractSelectors []
        "up,chrono_timeframe=\"7days\",_command=\"DONT_REMOVE_UNUSED_HISTORICS\""
      = ("", "") ∧
    ("", "") ≠ ("7days", "DONT_REMOVE_UNUSED_HISTORICS") ∧
    detectSelectors "up,\\bchrono_timeframe=\"7days\"" = ("7days", "") := by
  decide

/-- Claim C7 (confirmed): every emitted `percentCompareAgainstLast28`
point uses `pctOf`, which is exactly `0` when the matching average value is
`0` (not an error, not omitted — the instant point is emitted and the range
output has one point per current point) and `(v_c − v_a) / v_a × 100`
when the average is nonzero; this holds for the instant and the range
shape, and `appendPercent` emits the constructed series. -/
theorem chronoC7_percent_policy
    (ci ai cr ar : Series) (pc pa : Point) (cps aps : List Point)
    (command : String) (sig : Labels) (vc va : ℚ)
    (hva : va ≠ 0)
    (hci : ci.sdata = .vec pc) (hai : ai.sdata = .vec pa)
    (hcr : cr.sdata = .mat cps) (har : ar.sdata = .mat aps) :
    pctOf vc 0 = 0 ∧
    pctOf vc va = (vc - va) / va * 100 ∧
    mkPercent ci ai command false
      = some ⟨percentMetric ci.metric command,
              .vec ⟨pc.ts, some (pctOf (pc.v.getD 0) (pa.v.getD 0))⟩⟩ ∧
    mkPercent cr ar command true
      = some ⟨percentMetric cr.metric command,
              .mat (percentRangePts cps aps)⟩ ∧
    (percentRangePts cps aps).length = cps.length ∧
    appendPercent [] [(sig, ci)] [(sig, ai)] command false
      = some [⟨percentMetric ci.metric command,
               .vec ⟨pc.ts, some (pctOf (pc.v.getD 0) (pa.v.getD 0))⟩⟩] := by
  have hmk : mkPercent ci ai command false
      = some ⟨percentMetric ci.metric command,
              .vec ⟨pc.ts, some (pctOf (pc.v.getD 0) (pa.v.getD 0))⟩⟩ := by
    simp only [mkPercent, hci, hai, Bool.false_eq_true, if_false]
  refine ⟨by simp [pctOf], by simp [pctOf, hva], hmk, ?_, ?_, ?_⟩
  · simp only [mkPercent, hcr, har, if_true]
  · simp [percentRangePts]
  · unfold appendPercent pairEntries
    have hls : lookupS [(sig, ai)] sig = some ai := by
      simp [lookupS]
    simp only [hls, hmk]
    rfl

/-- Witness for claim C7: concrete series with a zero and a nonzero
average, the theorem applied at them. -/
theorem chronoC7_percent_policy_witness :
    pctOf 3 0 = 0 ∧
    pctOf 3 2 = ((3 : ℚ) - 2) / 2 * 100 ∧
    mkPercent ⟨[("a", "1"), ("chrono_timeframe", "current")],
               .vec ⟨100, some 3⟩⟩
              ⟨[("a", "1"), ("chrono_timeframe", "lastMonthAverage")],
               .vec ⟨90, some 0⟩⟩ "" false
      = some ⟨percentMetric [("a", "1"), ("chrono_timeframe", "current")] "",
              .vec ⟨(100 : Int),
                some (pctOf ((some (3 : ℚ)).getD 0) ((some (0 : ℚ)).getD 0))⟩⟩ ∧
    mkPercent ⟨[("a", "1"), ("chrono_timeframe", "current")],
               .mat [⟨60, some 3⟩]⟩
              ⟨[("a", "1"), ("chrono_timeframe", "lastMonthAverage")],
               .mat [⟨60, some 0⟩]⟩ "" true
      = some ⟨percentMetric [("a", "1"), ("chrono_timeframe", "current")] "",
              .mat (percentRangePts [⟨60, some 3⟩] [⟨60, some 0⟩])⟩ ∧
    (percentRangePts [⟨60, some 3⟩] [⟨60, some 0⟩]).length
      = ([⟨60, some 3⟩] : List Point).length ∧
    appendPercent [] [([("a", "1")],
        ⟨[("a", "1"), ("chrono_timeframe", "current")], .vec ⟨100, some 3⟩⟩)]
      [([("a", "1")],
        ⟨[("a", "1"), ("chrono_timeframe", "lastMonthAverage")],
         .vec ⟨90, some 0⟩⟩)] "" false
      = some [⟨percentMetric [("a", "1"), ("chrono_timeframe", "current")] "",
               .vec ⟨(100 : Int),
                 some (pctOf ((some (3 : ℚ)).getD 0)
                   ((some (0 : ℚ)).getD 0))⟩⟩] := by
  have h := chronoC7_percent_policy
    ⟨[("a", "1"), ("chrono_timeframe", "current")], .vec ⟨100, some 3⟩⟩
    ⟨[("a", "1"), ("chrono_timeframe", "lastMonthAverage")], .vec ⟨90, some 0⟩⟩
    ⟨[("a", "1"), ("chrono_timeframe", "current")], .mat [⟨60, some 3⟩]⟩
    ⟨[("a", "1"), ("chrono_timeframe", "lastMonthAverage")],
     .mat [⟨60, some 0⟩]⟩
    ⟨100, some 3⟩ ⟨90, some 0⟩ [⟨60, some 3⟩] [⟨60, some 0⟩]
    "" [("a", "1")] 3 2 (by norm_num) rfl rfl rfl rfl
  exact ⟨h.1, h.2.1, h.2.2.1, h.2.2.2.1, h.2.2.2.2.1, h.2.2.2.2.2⟩

/-- Claim C8 (code bug): when every sample of an instant-shape signature
group fails numeric parsing, `buildLastMonthAverage` accesses
`ptsOut[len(ptsOut)-1]` on the empty per-minute point list — an
out-of-range panic (modelled as `none`), refuting "completes without error
for every input pool".  When at least one sample still parses, the minute
falls back on the remaining samples with the denominator fixed at four. -/
theorem chronoC8_parse_failure_panics :
    buildLastMonthAverage
        [⟨[("a", "1"), ("chrono_timeframe", "7days")],
          .vec ⟨1700000000, none⟩⟩] false = none ∧
    buildLastMonthAverage
        [⟨[("a", "1"), ("chrono_timeframe", "7days")],
          .vec ⟨1700000000, some 8⟩⟩,
         ⟨[("a", "1"), ("chrono_timeframe", "14days")],
          .vec ⟨1700000030, none⟩⟩] false
      = some [⟨[("a", "1"), ("chrono_timeframe", "lastMonthAverage")],
              .vec ⟨1699999980,
                some (lookupSum [(1699999980, 8)] 1699999980
                  / ((4 : ℕ) : ℚ))⟩⟩] := by
  refine ⟨by decide, ?_⟩
  rfl

/-- Claim C9, counterexample: the label-values endpoint is not stateless —
a first request for label `job` fills the process-wide cache, and an
identical request 60 seconds later is served from that cache: no upstream
call is made and the stale data `["a", "b"]` is returned even though the
upstream would now answer `["c"]`. -/
theorem chronoC9_counterexample :
    (handleLabelValues "job" [] 1000 (.body (some ["a", "b"]))).calledUpstream
      = true ∧
    (handleLabelValues "job"
        (handleLabelValues "job" [] 1000 (.body (some ["a", "b"]))).cache
        1060 (.body (some ["c"]))).calledUpstream = false ∧
    (handleLabelValues "job"
        (handleLabelValues "job" [] 1000 (.body (some ["a", "b"]))).cache
        1060 (.body (some ["c"]))).result = .ok ["a", "b"] := by
  decide

/-- Claim C9, amended: the query pipeline itself holds no cross-request
state, but `handleLabelValues` keeps a process-wide per-label cache with a
5-minute TTL: any request for a non-synthetic label that finds a cache
entry younger than the TTL is answered from the cache — success status,
the cached data, no upstream call, cache unchanged. -/
theorem chronoC9_cache_hit (label : String) (cache : LVCache) (now : Int)
    (k : String) (data : List String) (ts : Int) (up : UpLV)
    (h1 : (label == "chrono_timeframe") = false)
    (h2 : (label == "_command") = false)
    (h3 : cache.find? (fun kv => kv.1 == label) = some (k, (data, ts)))
    (h4 : now - ts < labelValuesCacheTTL) :
    handleLabelValues label cache now up = ⟨.ok data, false, cache⟩ := by
  unfold handleLabelValues
  simp only [h1, h2, h3, Bool.false_eq_true, if_false]
  rw [if_pos h4]

/-- Witness for claim C9: a concrete warm cache entry inside the TTL, the
theorem applied at it. -/
theorem chronoC9_cache_hit_witness :
    handleLabelValues "job" [("job", (["a"], 10))] 100 .netErr
      = ⟨.ok ["a"], false, [("job", (["a"], 10))]⟩ :=
  chronoC9_cache_hit "job" [("job", (["a"], 10))] 100 "job" ["a"] 10 .netErr
    (by decide) (by decide) (by decide) (by decide)

/-- Claim C10 (confirmed): even when all five upstream window fetches fail
(network error, non-2xx body, or undecodable body — all modelled by the
oracle answering `none`), both query handlers still respond with the
success-status envelope carrying the correct resultType (`vector` /
`matrix`) and an empty result list, for every selector combination:
upstream fan-out failure never surfaces as an error status. -/
theorem chronoC10_allfail_success :
    ∀ (tf command : String) (t s e : Int),
      (handleQuery tf command (fun _ => none) t).response
          = some ⟨"success", "vector", []⟩ ∧
      (handleQueryRange tf command (fun _ => none) s e).response
          = some ⟨"success", "matrix", []⟩ := by
  intro tf command t s e
  constructor
  · unfold handleQuery
    cases hraw : isRawBranch tf with
    | true =>
      simp only [hraw, if_true]
      cases hfind : chronoWindows.find? (fun w => w.2 == tf) with
      | none => simp [writeJSON, finalFilter_nil]
      | some w =>
        simp [writeJSON, fetchWindowsInstant_pool_none, finalFilter_nil]
    | false =>
      simp only [hraw, Bool.false_eq_true, if_false]
      cases hcmd : (command == cmdOverride) with
      | true =>
        simp [hcmd, fetchWindowsInstant_pool_none, dedupeSeries, writeJSON,
          finalFilter_nil]
      | false =>
        cases htf : (tf == "") with
        | true =>
          simp [hcmd, htf, fetchWindowsInstant_pool_none, synthAll_nil,
            writeJSON, finalFilter_nil]
        | false =>
          simp [hcmd, htf, fetchWindowsInstant_pool_none, synthOnly_nil,
            writeJSON, finalFilter_nil]
  · unfold handleQueryRange
    cases hraw : isRawBranch tf with
    | true =>
      simp only [hraw, if_true]
      cases hfind : chronoWindows.find? (fun w => w.2 == tf) with
      | none => simp [writeJSON, finalFilter_nil]
      | some w =>
        simp [writeJSON, fetchWindowsRange_pool_none, finalFilter_nil]
    | false =>
      simp only [hraw, Bool.false_eq_true, if_false]
      cases hcmd : (command == cmdOverride) with
      | true =>
        simp [hcmd, fetchWindowsRange_pool_none, dedupeSeries, writeJSON,
          finalFilter_nil]
      | false =>
        cases htf : (tf == "") with
        | true =>
          simp [hcmd, htf, fetchWindowsRange_pool_none, synthAll_nil,
            writeJSON, finalFilter_nil]
        | false =>
          simp [hcmd, htf, fetchWindowsRange_pool_none, synthOnly_nil,
            writeJSON, finalFilter_nil]
